import Mathlib

/-!
Verification of the NCM lookup pipeline (`src/app.py`) against its
natural-language specification.

The pipeline is shallowly embedded: Python strings are Lean `String`s,
payload objects are association lists of Python-like values, the two
HTTP endpoints are modelled as functions from the request argument to an
abstract `HttpResult` (a received response, or a raised
`requests.RequestException`), and the resolver `buscar_ncm` additionally
returns the list of remote calls it issued, so that "no network call is
made" claims become facts about that trace.
-/

namespace NCM

/-- A Python value stored in an API payload field.  The reference API
returns JSON objects whose fields are strings (occasionally absent or
null); the model also keeps integers and booleans so that Python
truthiness ("empty string, zero, None and False are falsy") is faithfully
representable. -/
inductive PyVal where
  | str (s : String)
  | int (n : Int)
  | bool (b : Bool)
  | none
  deriving DecidableEq

/-- A payload object: a Python dict, modelled as an association list. -/
abbrev Item := List (String × PyVal)

/-- A JSON payload of the exact endpoint: a single object or a list of
objects (the shapes the spec's external-interface section documents for
the reference service). -/
inductive Payload where
  | obj (item : Item)
  | arr (items : List Item)
  deriving DecidableEq

/-- Outcome of one HTTP GET as seen by the `requests` layer: either a
response arrived (with its status code and, when the body parses as
JSON, the parsed payload — `body = none` models a 200 whose `.json()`
raises), or the call raised a `requests.RequestException`. -/
inductive HttpResult where
  | response (status : Nat) (body : Option Payload)
  | exn
  deriving DecidableEq

/-- A remote call issued by the resolver, recorded for the call trace. -/
inductive Call where
  | exactGet (code : String)
  | searchGet (termo : String)
  deriving DecidableEq

/-- The record returned by `buscar_ncm`
(`{input_code, code, description, source, status, detail}`). -/
structure Result where
  input_code : String
  code : String
  description : String
  source : String
  status : String
  detail : String
  deriving DecidableEq

/-- `API_BASE` from `src/app.py`. -/
def API_BASE : String := "https://brasilapi.com.br/api/ncm/v1"

/-- Python truthiness of a `PyVal`. -/
def pyTruthy : PyVal → Bool
  | .str s => s ≠ ""
  | .int n => n ≠ 0
  | .bool b => b
  | .none => false

/-- Python `str()` on a `PyVal`. -/
def pyStr : PyVal → String
  | .str s => s
  | .int n => toString n
  | .bool b => if b then "True" else "False"
  | .none => "None"

/-- Python `a or b`: the first operand when truthy, else the second. -/
def pyOr (a b : PyVal) : PyVal := if pyTruthy a then a else b

/-- Python `dict.get(k)`: the stored value, or `None` when absent. -/
def pyGet (item : Item) (k : String) : PyVal :=
  (item.lookup k).getD PyVal.none

/-- Removing a key from a payload object (used to state that a falsy
present field behaves like an absent one). -/
def eraseKey (item : Item) (k : String) : Item :=
  item.filter (fun kv => kv.1 ≠ k)

/-- ASCII whitespace as recognised by Python `str.strip()`. -/
def isPyWs (c : Char) : Bool :=
  c == ' ' || c == '\t' || c == '\n' || c == '\r' ||
    c == Char.ofNat 11 || c == Char.ofNat 12

/-- Python `str.strip()` on the underlying character list: drop
whitespace from the front, then from the back. -/
def pyStripL (l : List Char) : List Char :=
  ((l.dropWhile isPyWs).reverse.dropWhile isPyWs).reverse

/-- Python `str.strip()`. -/
def pyStrip (s : String) : String := String.mk (pyStripL s.data)

/-- `extrair_desc_item` from `src/app.py`:
`c = str(item.get("code") or item.get("codigo") or "").strip()` and
`d = str(item.get("description") or item.get("descricao") or "").strip()`. -/
def extrair_desc_item (item : Item) : String × String :=
  (pyStrip (pyStr (pyOr (pyOr (pyGet item "code") (pyGet item "codigo")) (PyVal.str ""))),
   pyStrip (pyStr (pyOr (pyOr (pyGet item "description") (pyGet item "descricao")) (PyVal.str ""))))

/-- The code-point ranges of Unicode general category Nd (decimal
digits), Unicode 14.0 — the exact character class Python's `\d` matches
in a `str` pattern such as `re.fullmatch(r"\d{8}", code)`. -/
def ndDigitRanges : List (Nat × Nat) :=
  [(0x30, 0x39), (0x660, 0x669), (0x6f0, 0x6f9), (0x7c0, 0x7c9),
   (0x966, 0x96f), (0x9e6, 0x9ef), (0xa66, 0xa6f), (0xae6, 0xaef),
   (0xb66, 0xb6f), (0xbe6, 0xbef), (0xc66, 0xc6f), (0xce6, 0xcef),
   (0xd66, 0xd6f), (0xde6, 0xdef), (0xe50, 0xe59), (0xed0, 0xed9),
   (0xf20, 0xf29), (0x1040, 0x1049), (0x1090, 0x1099), (0x17e0, 0x17e9),
   (0x1810, 0x1819), (0x1946, 0x194f), (0x19d0, 0x19d9), (0x1a80, 0x1a89),
   (0x1a90, 0x1a99), (0x1b50, 0x1b59), (0x1bb0, 0x1bb9), (0x1c40, 0x1c49),
   (0x1c50, 0x1c59), (0xa620, 0xa629), (0xa8d0, 0xa8d9), (0xa900, 0xa909),
   (0xa9d0, 0xa9d9), (0xa9f0, 0xa9f9), (0xaa50, 0xaa59), (0xabf0, 0xabf9),
   (0xff10, 0xff19), (0x104a0, 0x104a9), (0x10d30, 0x10d39),
   (0x11066, 0x1106f), (0x110f0, 0x110f9), (0x11136, 0x1113f),
   (0x111d0, 0x111d9), (0x112f0, 0x112f9), (0x11450, 0x11459),
   (0x114d0, 0x114d9), (0x11650, 0x11659), (0x116c0, 0x116c9),
   (0x11730, 0x11739), (0x118e0, 0x118e9), (0x11950, 0x11959),
   (0x11c50, 0x11c59), (0x11d50, 0x11d59), (0x11da0, 0x11da9),
   (0x16a60, 0x16a69), (0x16ac0, 0x16ac9), (0x16b50, 0x16b59),
   (0x1d7ce, 0x1d7ff), (0x1e140, 0x1e149), (0x1e2f0, 0x1e2f9),
   (0x1e950, 0x1e959), (0x1fbf0, 0x1fbf9)]

/-- Python's `\d` for `str` patterns: any Unicode decimal digit
(category Nd) — ASCII 0-9 but also e.g. Arabic-Indic or fullwidth
digits. -/
def isPyDigit (c : Char) : Bool :=
  ndDigitRanges.any fun r => r.1 ≤ c.toNat && c.toNat ≤ r.2

/-- `validar_ncm` from `src/app.py`: empty strings are rejected with
"Código vazio"; a string that does not fully match `\d{8}` (length 8
and every character a Unicode decimal digit, Python's `\d`) is rejected
with the 8-digit message; otherwise `(True, "")`. -/
def validar_ncm (code : String) : Bool × String :=
  if code = "" then (false, "Código vazio")
  else if code.length = 8 && code.data.all isPyDigit then (true, "")
  else (false, "NCM deve ter 8 dígitos numéricos (ex.: 21041019)")

/-- The delimiters `limpar_lista_codigos` collapses to commas. -/
def delimChars : List Char := [';', '\n', '\r', '\t', ' ']

/-- Python `str.replace(old, new)` for single-character arguments. -/
def pyReplaceChar (l : List Char) (old new : Char) : List Char :=
  l.map fun c => if c = old then new else c

/-- The replacement loop of `limpar_lista_codigos`:
`for s in [";", "\n", "\r", "\t", " "]: aux = aux.replace(s, ",")`. -/
def replaceDelims (l : List Char) : List Char :=
  delimChars.foldl (fun acc s => pyReplaceChar acc s ',') l

/-- Python `str.split(",")` on a character list: `"".split(",") == [""]`,
separators at the ends produce empty pieces. -/
def splitOnComma : List Char → List (List Char)
  | [] => [[]]
  | c :: rest =>
    if c = ',' then [] :: splitOnComma rest
    else
      match splitOnComma rest with
      | [] => [[c]]
      | g :: gs => (c :: g) :: gs

/-- `parts = [p.strip() for p in aux.split(",") if p.strip()]` from
`limpar_lista_codigos`. -/
def parts (raw : String) : List String :=
  ((splitOnComma (replaceDelims raw.data)).map (fun p => String.mk (pyStripL p))).filter
    (fun p => p ≠ "")

/-- The dedup loop of `limpar_lista_codigos` (`vistos` set, `saida`
accumulator, first occurrence kept). -/
def dedupLoop : List String → List String → List String
  | [], _ => []
  | p :: ps, vistos =>
    if p ∈ vistos then dedupLoop ps vistos else p :: dedupLoop ps (p :: vistos)

/-- `limpar_lista_codigos` from `src/app.py`. -/
def limpar_lista_codigos (raw : String) : List String :=
  if raw = "" then [] else dedupLoop (parts raw) []

/-- `consultar_ncm_exato` from `src/app.py`, over an abstract network
`net`: on a received response, return `(200, json)` when the status is
200 (a 200 whose body fails to parse raises a `RequestException`
subclass, caught into `(0, None)`), else `(status, None)`; a raised
`RequestException` yields `(0, None)`. -/
def consultar_ncm_exato (net : String → HttpResult) (code : String) :
    Nat × Option Payload :=
  match net code with
  | .response st body =>
    if st = 200 then
      match body with
      | some j => (200, some j)
      | Option.none => (0, Option.none)
    else (st, Option.none)
  | .exn => (0, Option.none)

/-- `consultar_ncm_busca` from `src/app.py`: as the exact lookup, but a
200 payload is normalised to a list (a single object is wrapped). -/
def consultar_ncm_busca (net : String → HttpResult) (termo : String) :
    Nat × Option (List Item) :=
  match net termo with
  | .response st body =>
    if st = 200 then
      match body with
      | some (.arr l) => (200, some l)
      | some (.obj i) => (200, some [i])
      | Option.none => (0, Option.none)
    else (st, Option.none)
  | .exn => (0, Option.none)

/-- The `invalid` terminal record of `buscar_ncm`. -/
def invalidRecord (code motivo : String) : Result where
  input_code := code
  code := ""
  description := ""
  source := ""
  status := "invalid"
  detail := motivo

/-- The terminal record of `buscar_ncm` for a 200 single-object exact
response. -/
def exactObjRecord (code : String) (item : Item) : Result where
  input_code := code
  code := if (extrair_desc_item item).1 = "" then code else (extrair_desc_item item).1
  description := (extrair_desc_item item).2
  source := API_BASE ++ "/" ++ code
  status := if (extrair_desc_item item).2 ≠ "" then "ok" else "not_found"
  detail := if (extrair_desc_item item).2 ≠ "" then "" else "Sem descrição no retorno do endpoint exato"

/-- The terminal record of `buscar_ncm` for an exact-matching element of
a 200 list exact response. -/
def exactListRecord (code : String) (item : Item) : Result where
  input_code := code
  code := if (extrair_desc_item item).1 = "" then code else (extrair_desc_item item).1
  description := (extrair_desc_item item).2
  source := API_BASE ++ "/" ++ code
  status := if (extrair_desc_item item).2 ≠ "" then "ok" else "not_found"
  detail := if (extrair_desc_item item).2 ≠ "" then "" else "Sem descrição (lista)"

/-- The `error` terminal record for an unexpected exact-endpoint status. -/
def errorExactRecord (code : String) (st : Nat) : Result where
  input_code := code
  code := ""
  description := ""
  source := API_BASE ++ "/" ++ code
  status := "error"
  detail := "HTTP " ++ toString st ++ " no endpoint exato"

/-- The terminal record for an exact-matching element of a 200 search
response. -/
def searchHitRecord (code : String) (item : Item) : Result where
  input_code := code
  code := if (extrair_desc_item item).1 = "" then code else (extrair_desc_item item).1
  description := (extrair_desc_item item).2
  source := API_BASE ++ "?search=" ++ code
  status := if (extrair_desc_item item).2 ≠ "" then "ok" else "not_found"
  detail := if (extrair_desc_item item).2 ≠ "" then "" else "Sem descrição no item (search)"

/-- The terminal record taking the first search item when no element
matches the candidate exactly. -/
def searchFallbackRecord (code : String) (item : Item) : Result where
  input_code := code
  code := if (extrair_desc_item item).1 = "" then code else (extrair_desc_item item).1
  description := (extrair_desc_item item).2
  source := API_BASE ++ "?search=" ++ code
  status := if (extrair_desc_item item).2 ≠ "" then "ok" else "not_found"
  detail := "Sem match exato; retornado o primeiro da busca"

/-- The `error` terminal record for an unexpected search-endpoint status. -/
def errorSearchRecord (code : String) (st : Nat) : Result where
  input_code := code
  code := ""
  description := ""
  source := API_BASE ++ "?search=" ++ code
  status := "error"
  detail := "HTTP " ++ toString st ++ " no endpoint search"

/-- The final `not_found` record of `buscar_ncm`. -/
def notFoundRecord (code : String) : Result where
  input_code := code
  code := code
  description := ""
  source := ""
  status := "not_found"
  detail := "Não encontrado"

/-- The `if status == 200 and data:` block of `buscar_ncm`: a terminal
record for a truthy 200 payload that is a single object, or a list
containing an element whose extracted code equals the candidate;
`none` when the block falls through. -/
def exactMatchResult (code : String) (st : Nat) (d : Option Payload) :
    Option Result :=
  if st = 200 then
    match d with
    | some (Payload.obj item) =>
      if item.isEmpty then Option.none else some (exactObjRecord code item)
    | some (Payload.arr items) =>
      if items.isEmpty then Option.none
      else (items.find? (fun it => (extrair_desc_item it).1 == code)).map
        (exactListRecord code)
    | Option.none => Option.none
  else Option.none

/-- The `if status2 == 200 and data2:` block of `buscar_ncm`: for a 200
search response with a non-empty list, the exact-matching element if one
exists, else the first element as fallback; `none` when the block falls
through. -/
def searchResult (code : String) (st2 : Nat) (d2 : Option (List Item)) :
    Option Result :=
  if st2 = 200 then
    match d2 with
    | some (first :: rest) =>
      match (first :: rest).find? (fun it => (extrair_desc_item it).1 == code) with
      | some it => some (searchHitRecord code it)
      | Option.none => some (searchFallbackRecord code first)
    | _ => Option.none
  else Option.none

/-- `buscar_ncm` from `src/app.py`, additionally returning the trace of
remote calls it issued (in order). -/
def buscar_ncm (netE netS : String → HttpResult) (code : String) :
    Result × List Call :=
  if (validar_ncm code).1 = false then
    (invalidRecord code (validar_ncm code).2, [])
  else
    match exactMatchResult code (consultar_ncm_exato netE code).1
        (consultar_ncm_exato netE code).2 with
    | some r => (r, [Call.exactGet code])
    | Option.none =>
      if (consultar_ncm_exato netE code).1 ∉ ([200, 404, 422, 0] : List Nat) then
        (errorExactRecord code (consultar_ncm_exato netE code).1, [Call.exactGet code])
      else
        match searchResult code (consultar_ncm_busca netS code).1
            (consultar_ncm_busca netS code).2 with
        | some r => (r, [Call.exactGet code, Call.searchGet code])
        | Option.none =>
          if (consultar_ncm_busca netS code).1 ∉ ([200, 404, 0] : List Nat) then
            (errorSearchRecord code (consultar_ncm_busca netS code).1,
             [Call.exactGet code, Call.searchGet code])
          else (notFoundRecord code, [Call.exactGet code, Call.searchGet code])

/-- The execution loop of `src/app.py` (lines 315-317): one
`buscar_ncm` result per candidate, in order. -/
def resolve_all (netE netS : String → HttpResult) (cs : List String) :
    List Result :=
  cs.map fun c => (buscar_ncm netE netS c).1

/-- Column access `df[name]` on the results DataFrame built from the
`buscar_ncm` records (columns `input_code`, `code`, `description`,
`source`, `status`, `detail`; `df.rename` produced a separate copy
`df_show`, leaving these names on `df`).  `none` models a `KeyError`. -/
def dfColumn (results : List Result) (name : String) : Option (List String) :=
  if name = "input_code" then some (results.map Result.input_code)
  else if name = "code" then some (results.map Result.code)
  else if name = "description" then some (results.map Result.description)
  else if name = "source" then some (results.map Result.source)
  else if name = "status" then some (results.map Result.status)
  else if name = "detail" then some (results.map Result.detail)
  else Option.none

/-- The summary section of `src/app.py` (lines 355-358): counts computed
from `df['Status']` (note the capitalised name). -/
def resumo (results : List Result) : Option (Nat × Nat × Nat × Nat) :=
  match dfColumn results "Status" with
  | some col =>
    some ((col.filter (· == "ok")).length,
          (col.filter (· == "not_found")).length,
          (col.filter (· == "invalid")).length,
          (col.filter (· == "error")).length)
  | Option.none => Option.none

/-- Modelled from the spec: the repository's retry-enabled Remote Client
copy (the canonical variant per the spec's design notes, a `requests`
session whose adapter retries transient statuses) is not under `src/`;
only the superseded draft without retry is.  The transient statuses its
retry policy re-issues the GET for. -/
def RETRY_STATUS_FORCELIST : List Nat := [429, 500, 502, 503, 504]

/-- Modelled from the spec: the retry policy's total attempt budget. -/
def RETRY_TOTAL : Nat := 3

/-- Modelled from the spec: the exponential backoff schedule — the delay
before re-issuing attempt `n + 1` doubles at every retry. -/
def backoffDelay (n : Nat) : Nat := 2 ^ n

/-- Modelled from the spec: one logical GET through the retrying
adapter, with a `RETRY_TOTAL` = 3 attempt budget.  `responses` gives the
outcome of each successive wire attempt; an attempt whose status is in
the forcelist is re-issued (after its backoff delay) while budget
remains.  The function returns the final `(status, payload)` outcome —
the only thing the caller observes — together with the number of
attempts made. -/
def sendWithRetry (responses : Nat → Nat × Option Payload) :
    (Nat × Option Payload) × Nat :=
  if (responses 0).1 ∉ RETRY_STATUS_FORCELIST then (responses 0, 1)
  else if (responses 1).1 ∉ RETRY_STATUS_FORCELIST then (responses 1, 2)
  else (responses 2, 3)


/-! ## Theorems -/

/-- C8: the Validator is a pure total function that never raises: it
returns invalid exactly when the input is empty or is not exactly 8
decimal digits — Unicode Nd, the class Python's `\d` matches — with a
non-empty reason string, and returns valid (with an empty reason) for
every string of exactly 8 decimal digits. -/
theorem C8_validator_characterisation (s : String) :
    ((validar_ncm s).1 = true ↔ (s.length = 8 ∧ s.data.all isPyDigit = true)) ∧
    ((validar_ncm s).1 = false → (validar_ncm s).2 ≠ "") ∧
    ((validar_ncm s).1 = true → (validar_ncm s).2 = "") := by
  unfold validar_ncm
  split_ifs with h1 h2
  · subst h1
    refine ⟨?_, ?_, ?_⟩
    · constructor
      · intro h; cases h
      · rintro ⟨h8, -⟩
        simp at h8
    · intro _
      decide
    · intro h; cases h
  · refine ⟨?_, ?_, ?_⟩
    · rw [Bool.and_eq_true, decide_eq_true_eq] at h2
      simpa using h2
    · intro h; cases h
    · intro _; rfl
  · refine ⟨?_, ?_, ?_⟩
    · rw [Bool.and_eq_true, decide_eq_true_eq] at h2
      constructor
      · intro h; cases h
      · intro h; exact absurd h h2
    · intro _
      decide
    · intro h; cases h

/-- C8 witness: the characterisation evaluated at the ASCII 8-digit
string "21041019" (valid), at the fullwidth 8-digit string (valid, as in
the source, since fullwidth digits are Unicode decimal digits), and at
"1234" (invalid, non-empty reason). -/
theorem C8_validator_witness :
    (validar_ncm "21041019").1 = true ∧
    (validar_ncm "２１０４１０１９").1 = true ∧
    (validar_ncm "1234").2 ≠ "" :=
  ⟨(C8_validator_characterisation "21041019").1.mpr (by decide),
   (C8_validator_characterisation "２１０４１０１９").1.mpr (by decide),
   (C8_validator_characterisation "1234").2.1 (by decide)⟩

/-- C5: a candidate that fails the 8-digit format contract yields a
terminal record with status `invalid` whose detail is the validator's
reason, with an empty remote-call trace, and the outcome does not depend
on the remote service's behaviour. -/
theorem C5_invalid_is_terminal_no_remote_calls (code motivo : String)
    (netE netS netE2 netS2 : String → HttpResult)
    (h : validar_ncm code = (false, motivo)) :
    buscar_ncm netE netS code = (invalidRecord code motivo, []) ∧
    buscar_ncm netE netS code = buscar_ncm netE2 netS2 code ∧
    (invalidRecord code motivo).status = "invalid" ∧
    (invalidRecord code motivo).detail = motivo := by
  have h1 : (validar_ncm code).1 = false := by rw [h]
  have h2 : (validar_ncm code).2 = motivo := by rw [h]
  refine ⟨?_, ?_, rfl, rfl⟩
  · unfold buscar_ncm
    rw [if_pos h1, h2]
  · unfold buscar_ncm
    rw [if_pos h1, if_pos h1]

/-- C5 witness: the claim applied to the invalid candidate "1234"
against networks of arbitrary behaviour. -/
theorem C5_invalid_witness :
    buscar_ncm (fun _ => HttpResult.exn) (fun _ => HttpResult.exn) "1234" =
      (invalidRecord "1234" "NCM deve ter 8 dígitos numéricos (ex.: 21041019)", []) :=
  (C5_invalid_is_terminal_no_remote_calls "1234"
    "NCM deve ter 8 dígitos numéricos (ex.: 21041019)"
    (fun _ => HttpResult.exn) (fun _ => HttpResult.exn)
    (fun _ => HttpResult.response 200 Option.none) (fun _ => HttpResult.exn)
    (by decide)).1

/-- C7: a `requests.RequestException` raised during the network call is
caught inside the Remote Client and converted into the transport-failure
sentinel `(0, None)`, for both the exact and the search operation; the
(total) client functions never propagate the exception. -/
theorem C7_exception_to_sentinel (net : String → HttpResult) (s : String)
    (h : net s = HttpResult.exn) :
    consultar_ncm_exato net s = (0, Option.none) ∧
    consultar_ncm_busca net s = (0, Option.none) := by
  unfold consultar_ncm_exato consultar_ncm_busca
  rw [h]
  exact ⟨rfl, rfl⟩

/-- C7 witness: a network whose every call raises, queried for
"21041019". -/
theorem C7_exception_witness :
    consultar_ncm_exato (fun _ => HttpResult.exn) "21041019" = (0, Option.none) ∧
    consultar_ncm_busca (fun _ => HttpResult.exn) "21041019" = (0, Option.none) :=
  C7_exception_to_sentinel (fun _ => HttpResult.exn) "21041019" rfl

/-- C6: the batch loop always completes, producing one record per
candidate — but the summary section then indexes the DataFrame by the
renamed column name `Status`, which the un-renamed `df` does not have,
so the count computation raises a `KeyError` (modelled as `none`)
instead of partitioning the records. -/
theorem C6_batch_completes_but_resumo_raises (netE netS : String → HttpResult)
    (codigos : List String) :
    (resolve_all netE netS codigos).length = codigos.length ∧
    resumo (resolve_all netE netS codigos) = Option.none := by
  constructor
  · simp [resolve_all]
  · rfl

/-- Modelled from the spec (retry-enabled Remote Client copy absent from
`src/`): C2 — one logical call makes between 1 and `RETRY_TOTAL` = 3
attempts; every attempt except the last received a transient status from
`RETRY_STATUS_FORCELIST` = {429, 500, 502, 503, 504}; a first
non-transient outcome is returned immediately with no retry; the caller
observes exactly the outcome of the last attempt; and the backoff delay
grows exponentially (doubles at each retry). -/
theorem C2_retry_policy (responses : Nat → Nat × Option Payload)
    (r : Nat × Option Payload) (a : Nat)
    (h : sendWithRetry responses = (r, a)) :
    1 ≤ a ∧ a ≤ RETRY_TOTAL ∧ r = responses (a - 1) ∧
    (∀ j, j + 1 < a → (responses j).1 ∈ RETRY_STATUS_FORCELIST) ∧
    ((responses 0).1 ∉ RETRY_STATUS_FORCELIST → a = 1) ∧
    (∀ n, backoffDelay (n + 1) = 2 * backoffDelay n) := by
  have hb : ∀ n, backoffDelay (n + 1) = 2 * backoffDelay n := by
    intro n
    unfold backoffDelay
    rw [pow_succ]
    ring
  unfold sendWithRetry at h
  by_cases h0 : (responses 0).1 ∈ RETRY_STATUS_FORCELIST
  · rw [if_neg (by simpa using h0)] at h
    by_cases h1 : (responses 1).1 ∈ RETRY_STATUS_FORCELIST
    · rw [if_neg (by simpa using h1)] at h
      injection h with h3 h4
      subst h4
      subst h3
      refine ⟨by omega, by decide, rfl, ?_, ?_, hb⟩
      · intro j hj
        have hj2 : j = 0 ∨ j = 1 := by omega
        rcases hj2 with rfl | rfl
        · exact h0
        · exact h1
      · intro hc
        exact absurd h0 hc
    · rw [if_pos h1] at h
      injection h with h3 h4
      subst h4
      subst h3
      refine ⟨by omega, by decide, rfl, ?_, ?_, hb⟩
      · intro j hj
        have hj2 : j = 0 := by omega
        subst hj2
        exact h0
      · intro hc
        exact absurd h0 hc
  · rw [if_pos h0] at h
    injection h with h3 h4
    subst h4
    subst h3
    refine ⟨by omega, by decide, rfl, ?_, fun _ => rfl, hb⟩
    intro j hj
    omega

/-- C2 witness: a service answering 503 on every attempt — the caller
observes the last attempt's outcome after the full attempt budget. -/
theorem C2_retry_witness :
    ((503, (Option.none : Option Payload)) =
      (fun _ : Nat => ((503 : Nat), (Option.none : Option Payload))) (3 - 1)) ∧
    (3 : Nat) ≤ RETRY_TOTAL := by
  have h := C2_retry_policy (fun _ => ((503 : Nat), Option.none))
    (503, Option.none) 3 rfl
  exact ⟨h.2.2.1, h.2.1⟩


/-- Any record the exact-lookup 200 block terminates with carries the
input candidate and an `ok`/`not_found` status. -/
lemma exactMatchResult_spec (code : String) (st : Nat) (d : Option Payload)
    (r : Result) (h : exactMatchResult code st d = some r) :
    r.input_code = code ∧ (r.status = "ok" ∨ r.status = "not_found") := by
  unfold exactMatchResult at h
  split at h
  · split at h
    · split at h
      · cases h
      · injection h with h2
        subst h2
        refine ⟨rfl, ?_⟩
        simp only [exactObjRecord]
        split
        · left
          rfl
        · right
          rfl
    · split at h
      · cases h
      · rw [Option.map_eq_some'] at h
        obtain ⟨it, hfind, h3⟩ := h
        subst h3
        refine ⟨rfl, ?_⟩
        simp only [exactListRecord]
        split
        · left
          rfl
        · right
          rfl
    · cases h
  · cases h

/-- Any record the search 200 block terminates with carries the input
candidate and an `ok`/`not_found` status. -/
lemma searchResult_spec (code : String) (st2 : Nat) (d2 : Option (List Item))
    (r : Result) (h : searchResult code st2 d2 = some r) :
    r.input_code = code ∧ (r.status = "ok" ∨ r.status = "not_found") := by
  unfold searchResult at h
  split at h
  · split at h
    · split at h
      · injection h with h2
        subst h2
        refine ⟨rfl, ?_⟩
        simp only [searchHitRecord]
        split
        · left
          rfl
        · right
          rfl
      · injection h with h2
        subst h2
        refine ⟨rfl, ?_⟩
        simp only [searchFallbackRecord]
        split
        · left
          rfl
        · right
          rfl
    · cases h
  · cases h

/-- The resolver's record always echoes the candidate in `input_code`
and has one of the four statuses. -/
lemma buscar_spec (netE netS : String → HttpResult) (code : String) :
    (buscar_ncm netE netS code).1.input_code = code ∧
    (buscar_ncm netE netS code).1.status ∈
      (["ok", "not_found", "invalid", "error"] : List String) := by
  unfold buscar_ncm
  split
  · exact ⟨rfl, by simp [invalidRecord]⟩
  · split
    next r heq =>
      obtain ⟨h1, h2⟩ := exactMatchResult_spec _ _ _ _ heq
      refine ⟨h1, ?_⟩
      rcases h2 with h2 | h2 <;> simp [h2]
    next heq =>
      split
      · exact ⟨rfl, by simp [errorExactRecord]⟩
      · split
        next r heq2 =>
          obtain ⟨h1, h2⟩ := searchResult_spec _ _ _ _ heq2
          refine ⟨h1, ?_⟩
          rcases h2 with h2 | h2 <;> simp [h2]
        next heq2 =>
          split
          · exact ⟨rfl, by simp [errorSearchRecord]⟩
          · exact ⟨rfl, by simp [notFoundRecord]⟩

/-- C1: the Resolver is a total function producing exactly one Result
record whose status is one of ok/not_found/invalid/error, and the batch
runner returns one record per candidate, order-matched (the i-th output
is the resolution of the i-th input and echoes it in `input_code`). -/
theorem C1_resolver_total_batch (netE netS : String → HttpResult)
    (cs : List String) :
    (resolve_all netE netS cs).length = cs.length ∧
    ∀ i (h1 : i < cs.length) (h2 : i < (resolve_all netE netS cs).length),
      (resolve_all netE netS cs).get ⟨i, h2⟩ =
        (buscar_ncm netE netS (cs.get ⟨i, h1⟩)).1 ∧
      ((resolve_all netE netS cs).get ⟨i, h2⟩).input_code = cs.get ⟨i, h1⟩ ∧
      ((resolve_all netE netS cs).get ⟨i, h2⟩).status ∈
        (["ok", "not_found", "invalid", "error"] : List String) := by
  refine ⟨by simp [resolve_all], ?_⟩
  intro i h1 h2
  have hg : (resolve_all netE netS cs).get ⟨i, h2⟩ =
      (buscar_ncm netE netS (cs.get ⟨i, h1⟩)).1 := by
    simp [resolve_all]
  rw [hg]
  exact ⟨rfl, (buscar_spec netE netS _).1, (buscar_spec netE netS _).2⟩

/-- C1 witness: a one-element batch against a network that always
raises. -/
theorem C1_batch_witness :
    (resolve_all (fun _ => HttpResult.exn) (fun _ => HttpResult.exn) ["1234"]).length = 1 ∧
    ((resolve_all (fun _ => HttpResult.exn) (fun _ => HttpResult.exn) ["1234"]).get
        ⟨0, by decide⟩).status ∈ (["ok", "not_found", "invalid", "error"] : List String) := by
  have h := C1_resolver_total_batch (fun _ => HttpResult.exn) (fun _ => HttpResult.exn) ["1234"]
  exact ⟨h.1, (h.2 0 (by decide) (by decide)).2.2⟩

/-- C4: for a validated candidate, if the exact lookup's status is none
of 200/404/422/0 the resolver stops with an `error` record whose detail
names the status, having made no search call; if the status is 404, 422
or 0, or 200 without a usable match, it proceeds to the search call. -/
theorem C4_exact_status_escalation (netE netS : String → HttpResult)
    (code : String) (st : Nat) (d : Option Payload)
    (hv : (validar_ncm code).1 = true)
    (he : consultar_ncm_exato netE code = (st, d)) :
    (st ∉ ([200, 404, 422, 0] : List Nat) →
      buscar_ncm netE netS code = (errorExactRecord code st, [Call.exactGet code]) ∧
      (errorExactRecord code st).status = "error" ∧
      (errorExactRecord code st).detail = "HTTP " ++ toString st ++ " no endpoint exato") ∧
    ((st ∈ ([404, 422, 0] : List Nat) ∨ (st = 200 ∧ exactMatchResult code st d = Option.none)) →
      (buscar_ncm netE netS code).2 = [Call.exactGet code, Call.searchGet code]) := by
  have hvne : ¬((validar_ncm code).1 = false) := by simp [hv]
  have he1 : (consultar_ncm_exato netE code).1 = st := by rw [he]
  have he2 : (consultar_ncm_exato netE code).2 = d := by rw [he]
  constructor
  · intro hnot
    have h200 : ¬(st = 200) := by
      intro h2
      exact hnot (by simp [h2])
    have hm : exactMatchResult code st d = Option.none := by
      unfold exactMatchResult
      exact if_neg h200
    refine ⟨?_, rfl, rfl⟩
    unfold buscar_ncm
    rw [if_neg hvne]
    split
    next r heq =>
      rw [he1, he2, hm] at heq
      cases heq
    next heq =>
      rw [he1, if_pos hnot]
  · intro hor
    have hm : exactMatchResult code st d = Option.none := by
      rcases hor with hin | ⟨h200, hm⟩
      · unfold exactMatchResult
        apply if_neg
        intro h200
        subst h200
        simp at hin
      · exact hm
    have hin2 : st ∈ ([200, 404, 422, 0] : List Nat) := by
      rcases hor with hin | ⟨h200, -⟩
      · simp only [List.mem_cons, List.not_mem_nil, or_false] at hin ⊢
        tauto
      · simp [h200]
    unfold buscar_ncm
    rw [if_neg hvne]
    split
    next r heq =>
      rw [he1, he2, hm] at heq
      cases heq
    next heq =>
      rw [he1, if_neg (not_not_intro hin2)]
      split
      · rfl
      · split
        · rfl
        · rfl

/-- C4 witness: scenario D — candidate "20099000", exact endpoint
answering 503: terminal `error` record naming 503, search never called. -/
theorem C4_error_witness :
    buscar_ncm (fun _ => HttpResult.response 503 Option.none)
        (fun _ => HttpResult.response 404 Option.none) "20099000" =
      (errorExactRecord "20099000" 503, [Call.exactGet "20099000"]) :=
  ((C4_exact_status_escalation (fun _ => HttpResult.response 503 Option.none)
    (fun _ => HttpResult.response 404 Option.none) "20099000" 503 Option.none
    (by decide) rfl).1 (by decide)).1

/-- C3: for a validated candidate whose exact stage fell through, a 200
search response with a non-empty list is resolved by first scanning for
an item whose extracted code equals the candidate — returned with
`ok`/`not_found` per description presence and the search URL as
provenance — and only if no item matches, by taking the first item, with
the same status determination and the non-exact-fallback detail. -/
theorem C3_search_match_then_first (netE netS : String → HttpResult)
    (code : String) (first : Item) (rest : List Item)
    (hv : (validar_ncm code).1 = true)
    (hm : exactMatchResult code (consultar_ncm_exato netE code).1
      (consultar_ncm_exato netE code).2 = Option.none)
    (hin : (consultar_ncm_exato netE code).1 ∈ ([200, 404, 422, 0] : List Nat))
    (hs : consultar_ncm_busca netS code = (200, some (first :: rest))) :
    (∀ it, (first :: rest).find? (fun i2 => (extrair_desc_item i2).1 == code) = some it →
      (buscar_ncm netE netS code).1 = searchHitRecord code it ∧
      (searchHitRecord code it).status =
        (if (extrair_desc_item it).2 ≠ "" then "ok" else "not_found") ∧
      (searchHitRecord code it).source = API_BASE ++ "?search=" ++ code) ∧
    ((first :: rest).find? (fun i2 => (extrair_desc_item i2).1 == code) = Option.none →
      (buscar_ncm netE netS code).1 = searchFallbackRecord code first ∧
      (searchFallbackRecord code first).status =
        (if (extrair_desc_item first).2 ≠ "" then "ok" else "not_found") ∧
      (searchFallbackRecord code first).source = API_BASE ++ "?search=" ++ code ∧
      (searchFallbackRecord code first).detail =
        "Sem match exato; retornado o primeiro da busca") := by
  have hvne : ¬((validar_ncm code).1 = false) := by simp [hv]
  have hs1 : (consultar_ncm_busca netS code).1 = 200 := by rw [hs]
  have hs2 : (consultar_ncm_busca netS code).2 = some (first :: rest) := by rw [hs]
  constructor
  · intro it hfind
    have hsr : searchResult code 200 (some (first :: rest)) =
        some (searchHitRecord code it) := by
      simp [searchResult, hfind]
    refine ⟨?_, rfl, rfl⟩
    unfold buscar_ncm
    rw [if_neg hvne]
    split
    next r heq =>
      rw [hm] at heq
      cases heq
    next heq =>
      rw [if_neg (not_not_intro hin)]
      split
      next r heq2 =>
        rw [hs1, hs2, hsr] at heq2
        injection heq2 with heq2
        rw [heq2]
      next heq2 =>
        rw [hs1, hs2, hsr] at heq2
        cases heq2
  · intro hfind
    have hsr : searchResult code 200 (some (first :: rest)) =
        some (searchFallbackRecord code first) := by
      simp [searchResult, hfind]
    refine ⟨?_, rfl, rfl, rfl⟩
    unfold buscar_ncm
    rw [if_neg hvne]
    split
    next r heq =>
      rw [hm] at heq
      cases heq
    next heq =>
      rw [if_neg (not_not_intro hin)]
      split
      next r heq2 =>
        rw [hs1, hs2, hsr] at heq2
        injection heq2 with heq2
        rw [heq2]
      next heq2 =>
        rw [hs1, hs2, hsr] at heq2
        cases heq2

/-- C3 witness: scenario E — candidate "08011100", exact endpoint 404,
search endpoint returning one non-matching item: the fallback record is
produced, flagged as a non-exact match. -/
theorem C3_fallback_witness :
    (buscar_ncm (fun _ => HttpResult.response 404 Option.none)
        (fun _ => HttpResult.response 200 (some (Payload.arr
          [[("code", PyVal.str "17011400"), ("description", PyVal.str "acucar")]])))
        "08011100").1 =
      searchFallbackRecord "08011100"
        [("code", PyVal.str "17011400"), ("description", PyVal.str "acucar")] :=
  ((C3_search_match_then_first (fun _ => HttpResult.response 404 Option.none)
    (fun _ => HttpResult.response 200 (some (Payload.arr
      [[("code", PyVal.str "17011400"), ("description", PyVal.str "acucar")]])))
    "08011100" [("code", PyVal.str "17011400"), ("description", PyVal.str "acucar")] []
    (by decide) (by decide) (by decide) rfl).2 (by decide)).1


/-- Looking up the erased key finds nothing. -/
lemma lookup_eraseKey_self (item : Item) (k : String) :
    (eraseKey item k).lookup k = Option.none := by
  induction item with
  | nil => rfl
  | cons kv t ih =>
    obtain ⟨k1, v1⟩ := kv
    by_cases h : k1 = k
    · subst h
      simpa [eraseKey, List.filter_cons] using ih
    · simp only [eraseKey, List.filter_cons] at ih ⊢
      rw [if_pos (by simp [h])]
      rw [List.lookup_cons]
      have hbeq : (k == k1) = false := by
        simp [Ne.symm h]
      rw [hbeq]
      exact ih

/-- Erasing one key leaves lookups of every other key unchanged. -/
lemma lookup_eraseKey_ne (item : Item) (k k2 : String) (hne : k2 ≠ k) :
    (eraseKey item k).lookup k2 = item.lookup k2 := by
  induction item with
  | nil => rfl
  | cons kv t ih =>
    obtain ⟨k1, v1⟩ := kv
    by_cases h : k1 = k
    · subst h
      have hbeq : (k2 == k1) = false := by simp [hne]
      simp only [eraseKey, List.filter_cons] at ih ⊢
      rw [if_neg (by simp)]
      rw [List.lookup_cons, hbeq]
      exact ih
    · simp only [eraseKey, List.filter_cons] at ih ⊢
      rw [if_pos (by simp [h])]
      rw [List.lookup_cons, List.lookup_cons]
      cases hbeq : (k2 == k1)
      · exact ih
      · rfl

/-- The head of a `dropWhile` run never satisfies the dropped predicate. -/
lemma head?_dropWhile_false (p : Char → Bool) (l : List Char) (a : Char)
    (h : (l.dropWhile p).head? = some a) : p a = false := by
  induction l with
  | nil => cases h
  | cons c t ih =>
    rw [List.dropWhile_cons] at h
    split at h
    · exact ih h
    · next hpc =>
      simp only [List.head?_cons] at h
      injection h with h2
      subst h2
      simpa using hpc

/-- `dropWhile` preserves the last element when its result is non-empty. -/
lemma getLast?_dropWhile (p : Char → Bool) (l : List Char) (a : Char)
    (h : (l.dropWhile p).getLast? = some a) : l.getLast? = some a := by
  induction l with
  | nil => cases h
  | cons c t ih =>
    rw [List.dropWhile_cons] at h
    split at h
    · have h2 := ih h
      cases t with
      | nil => cases h2
      | cons x xs =>
        rw [List.getLast?_cons_cons]
        exact h2
    · exact h

/-- A string with no leading and no trailing Python whitespace. -/
def NoEdgeWs (s : String) : Prop :=
  (∀ a, s.data.head? = some a → isPyWs a = false) ∧
  (∀ a, s.data.getLast? = some a → isPyWs a = false)

/-- `str.strip()` leaves no whitespace at either edge. -/
lemma noEdgeWs_pyStrip (s : String) : NoEdgeWs (pyStrip s) := by
  constructor
  · intro a h
    have h2 : (pyStripL s.data).head? = some a := h
    rw [pyStripL, List.head?_reverse] at h2
    have h3 := getLast?_dropWhile _ _ _ h2
    rw [List.getLast?_reverse] at h3
    exact head?_dropWhile_false _ _ _ h3
  · intro a h
    have h2 : (pyStripL s.data).getLast? = some a := h
    rw [pyStripL, List.getLast?_reverse] at h2
    exact head?_dropWhile_false _ _ _ h2

/-- C10: in the Field Extractor, a `code` key holding a falsy value
(empty string, 0, False, None) behaves exactly as if the key were
absent — the extractor falls back to `codigo` — and analogously a falsy
`description` falls back to `descricao`; and both output components are
whitespace-stripped strings. -/
theorem C10_extractor_falsy_fallback :
    (∀ (item : Item) (v : PyVal), item.lookup "code" = some v → pyTruthy v = false →
      extrair_desc_item item = extrair_desc_item (eraseKey item "code")) ∧
    (∀ (item : Item) (v : PyVal), item.lookup "description" = some v → pyTruthy v = false →
      extrair_desc_item item = extrair_desc_item (eraseKey item "description")) ∧
    (∀ item : Item,
      NoEdgeWs (extrair_desc_item item).1 ∧ NoEdgeWs (extrair_desc_item item).2) := by
  refine ⟨?_, ?_, ?_⟩
  · intro item v hl ht
    unfold extrair_desc_item
    have h1 : pyGet item "code" = v := by simp [pyGet, hl]
    have h2 : pyGet (eraseKey item "code") "code" = PyVal.none := by
      simp [pyGet, lookup_eraseKey_self]
    have h3 : pyGet (eraseKey item "code") "codigo" = pyGet item "codigo" := by
      simp [pyGet, lookup_eraseKey_ne item "code" "codigo" (by decide)]
    have h4 : pyGet (eraseKey item "code") "description" = pyGet item "description" := by
      simp [pyGet, lookup_eraseKey_ne item "code" "description" (by decide)]
    have h5 : pyGet (eraseKey item "code") "descricao" = pyGet item "descricao" := by
      simp [pyGet, lookup_eraseKey_ne item "code" "descricao" (by decide)]
    have hOr : ∀ b, pyOr v b = pyOr PyVal.none b := by
      intro b
      unfold pyOr
      rw [ht]
      rfl
    rw [h1, h2, h3, h4, h5, hOr]
  · intro item v hl ht
    unfold extrair_desc_item
    have h1 : pyGet item "description" = v := by simp [pyGet, hl]
    have h2 : pyGet (eraseKey item "description") "description" = PyVal.none := by
      simp [pyGet, lookup_eraseKey_self]
    have h3 : pyGet (eraseKey item "description") "descricao" = pyGet item "descricao" := by
      simp [pyGet, lookup_eraseKey_ne item "description" "descricao" (by decide)]
    have h4 : pyGet (eraseKey item "description") "code" = pyGet item "code" := by
      simp [pyGet, lookup_eraseKey_ne item "description" "code" (by decide)]
    have h5 : pyGet (eraseKey item "description") "codigo" = pyGet item "codigo" := by
      simp [pyGet, lookup_eraseKey_ne item "description" "codigo" (by decide)]
    have hOr : ∀ b, pyOr v b = pyOr PyVal.none b := by
      intro b
      unfold pyOr
      rw [ht]
      rfl
    rw [h1, h2, h3, h4, h5, hOr]
  · intro item
    exact ⟨noEdgeWs_pyStrip _, noEdgeWs_pyStrip _⟩

/-- C10 witness: an item whose `code` field is present but empty is
extracted exactly like the same item without a `code` key. -/
theorem C10_falsy_witness :
    extrair_desc_item [("code", PyVal.str ""), ("codigo", PyVal.str "0401")] =
      extrair_desc_item
        (eraseKey [("code", PyVal.str ""), ("codigo", PyVal.str "0401")] "code") :=
  C10_extractor_falsy_fallback.1 [("code", PyVal.str ""), ("codigo", PyVal.str "0401")]
    (PyVal.str "") (by decide) (by decide)


/-- Membership in the dedup loop's output: the kept elements are exactly
those of the remaining input not already seen. -/
lemma mem_dedupLoop (ps vistos : List String) (x : String) :
    x ∈ dedupLoop ps vistos ↔ x ∈ ps ∧ x ∉ vistos := by
  induction ps generalizing vistos with
  | nil => simp [dedupLoop]
  | cons p t ih =>
    by_cases hp : p ∈ vistos
    · unfold dedupLoop
      rw [if_pos hp, ih]
      constructor
      · rintro ⟨h1, h2⟩
        exact ⟨List.mem_cons_of_mem _ h1, h2⟩
      · rintro ⟨h1, h2⟩
        rcases List.mem_cons.mp h1 with rfl | h1
        · exact absurd hp h2
        · exact ⟨h1, h2⟩
    · unfold dedupLoop
      rw [if_neg hp, List.mem_cons, ih]
      constructor
      · rintro (rfl | ⟨h1, h2⟩)
        · exact ⟨List.mem_cons_self _ _, hp⟩
        · refine ⟨List.mem_cons_of_mem _ h1, ?_⟩
          intro hv
          exact h2 (List.mem_cons_of_mem _ hv)
      · rintro ⟨h1, h2⟩
        rcases List.mem_cons.mp h1 with rfl | h1
        · exact Or.inl rfl
        · by_cases hxp : x = p
          · exact Or.inl hxp
          · refine Or.inr ⟨h1, ?_⟩
            intro hv
            rcases List.mem_cons.mp hv with h | h
            · exact hxp h
            · exact h2 h

/-- The dedup loop never emits an element twice. -/
lemma nodup_dedupLoop (ps : List String) :
    ∀ vistos, (dedupLoop ps vistos).Nodup := by
  induction ps with
  | nil =>
    intro _
    simp [dedupLoop]
  | cons p t ih =>
    intro vistos
    by_cases hp : p ∈ vistos
    · unfold dedupLoop
      rw [if_pos hp]
      exact ih vistos
    · unfold dedupLoop
      rw [if_neg hp, List.nodup_cons]
      constructor
      · intro hmem
        exact ((mem_dedupLoop t (p :: vistos) p).1 hmem).2 (List.mem_cons_self _ _)
      · exact ih (p :: vistos)

/-- The dedup loop's output is a sublist of its input (relative order of
kept elements is the input order). -/
lemma sublist_dedupLoop (ps : List String) :
    ∀ vistos, (dedupLoop ps vistos).Sublist ps := by
  induction ps with
  | nil =>
    intro _
    simp [dedupLoop]
  | cons p t ih =>
    intro vistos
    by_cases hp : p ∈ vistos
    · unfold dedupLoop
      rw [if_pos hp]
      exact (ih vistos).cons p
    · unfold dedupLoop
      rw [if_neg hp]
      exact (ih (p :: vistos)).cons₂ p

/-- The dedup loop's output is sorted by index of first occurrence in
its input: it keeps first appearances, in first-appearance order. -/
lemma pairwise_dedupLoop (ps : List String) :
    ∀ vistos, (dedupLoop ps vistos).Pairwise
      (fun a b => ps.indexOf a < ps.indexOf b) := by
  induction ps with
  | nil =>
    intro _
    simp [dedupLoop]
  | cons p t ih =>
    intro vistos
    by_cases hp : p ∈ vistos
    · unfold dedupLoop
      rw [if_pos hp]
      refine List.Pairwise.imp_of_mem ?_ (ih vistos)
      intro a b ha hb hab
      have ha2 := (mem_dedupLoop t vistos a).1 ha
      have hb2 := (mem_dedupLoop t vistos b).1 hb
      have hap : p ≠ a := by
        intro hEq
        apply ha2.2
        rw [← hEq]
        exact hp
      have hbp : p ≠ b := by
        intro hEq
        apply hb2.2
        rw [← hEq]
        exact hp
      rw [List.indexOf_cons_ne _ hap, List.indexOf_cons_ne _ hbp]
      omega
    · unfold dedupLoop
      rw [if_neg hp, List.pairwise_cons]
      constructor
      · intro b hb
        have hb2 := (mem_dedupLoop t (p :: vistos) b).1 hb
        have hbp : p ≠ b := by
          intro hEq
          exact hb2.2 (by rw [← hEq]; exact List.mem_cons_self _ _)
        rw [List.indexOf_cons_self, List.indexOf_cons_ne _ hbp]
        omega
      · refine List.Pairwise.imp_of_mem ?_ (ih (p :: vistos))
        intro a b ha hb hab
        have ha2 := (mem_dedupLoop t (p :: vistos) a).1 ha
        have hb2 := (mem_dedupLoop t (p :: vistos) b).1 hb
        have hap : p ≠ a := by
          intro hEq
          exact ha2.2 (by rw [← hEq]; exact List.mem_cons_self _ _)
        have hbp : p ≠ b := by
          intro hEq
          exact hb2.2 (by rw [← hEq]; exact List.mem_cons_self _ _)
        rw [List.indexOf_cons_ne _ hap, List.indexOf_cons_ne _ hbp]
        omega

/-- The five single-character replacements act pointwise: a delimiter
character becomes a comma, every other character is kept. -/
lemma replaceDelims_cons (c : Char) (t : List Char) :
    replaceDelims (c :: t) =
      (if c ∈ delimChars then ',' else c) :: replaceDelims t := by
  unfold replaceDelims delimChars pyReplaceChar
  simp only [List.foldl_cons, List.foldl_nil, List.map_cons]
  congr 1
  by_cases h1 : c = ';'
  · subst h1
    rfl
  · by_cases h2 : c = Char.ofNat 10
    · subst h2
      rfl
    · by_cases h3 : c = Char.ofNat 13
      · subst h3
        rfl
      · by_cases h4 : c = Char.ofNat 9
        · subst h4
          rfl
        · by_cases h5 : c = ' '
          · subst h5
            rfl
          · have h2b : c ≠ '\n' := h2
            have h3b : c ≠ '\r' := h3
            have h4b : c ≠ '\t' := h4
            simp [h1, h2b, h3b, h4b, h5]

/-- A list of blank characters is replaced by all commas. -/
lemma replaceDelims_ws (l : List Char)
    (h : ∀ c ∈ l, c ∈ ([' ', '\n', '\r', '\t'] : List Char)) :
    replaceDelims l = List.replicate l.length ',' := by
  induction l with
  | nil => rfl
  | cons c t ih =>
    rw [replaceDelims_cons]
    have hc : c ∈ delimChars := by
      have hmem := h c (List.mem_cons_self _ _)
      unfold delimChars
      fin_cases hmem <;> simp
    rw [if_pos hc, ih (fun x hx => h x (List.mem_cons_of_mem _ hx))]
    rw [List.length_cons, List.replicate_succ]

/-- Splitting a run of commas yields only empty pieces. -/
lemma splitOnComma_replicate (n : Nat) :
    splitOnComma (List.replicate n ',') = List.replicate (n + 1) [] := by
  induction n with
  | zero => rfl
  | succ m ih => simp [List.replicate_succ, splitOnComma, ih]

/-- Blank input produces no candidate pieces. -/
lemma parts_ws (raw : String)
    (h : ∀ c ∈ raw.data, c ∈ ([' ', '\n', '\r', '\t'] : List Char)) :
    parts raw = [] := by
  unfold parts
  rw [replaceDelims_ws _ h, splitOnComma_replicate, List.map_replicate]
  have h3 : String.mk (pyStripL []) = "" := rfl
  rw [h3]
  simp

/-- C9: the Normalizer collapses the delimiters to commas, splits,
trims, drops empties, and deduplicates preserving first-seen order: its
output has no duplicates, is a sublist of the trimmed non-empty pieces
with the same membership, ordered by index of first appearance; empty
and whitespace-only input yield the empty sequence. -/
theorem C9_normalizer_dedup_order (raw : String) :
    (limpar_lista_codigos raw).Nodup ∧
    (limpar_lista_codigos raw).Sublist (parts raw) ∧
    (∀ x, x ∈ limpar_lista_codigos raw ↔ x ∈ parts raw) ∧
    (limpar_lista_codigos raw).Pairwise
      (fun a b => (parts raw).indexOf a < (parts raw).indexOf b) ∧
    limpar_lista_codigos "" = [] ∧
    ((∀ c ∈ raw.data, c ∈ ([' ', '\n', '\r', '\t'] : List Char)) →
      limpar_lista_codigos raw = []) := by
  by_cases hraw : raw = ""
  · subst hraw
    have hp0 : parts "" = [] := by decide
    refine ⟨by simp [limpar_lista_codigos], by simp [limpar_lista_codigos], ?_,
      by simp [limpar_lista_codigos], rfl, fun _ => rfl⟩
    intro x
    simp [limpar_lista_codigos, hp0]
  · unfold limpar_lista_codigos
    rw [if_neg hraw]
    refine ⟨nodup_dedupLoop _ _, sublist_dedupLoop _ _, ?_,
      pairwise_dedupLoop _ _, rfl, ?_⟩
    · intro x
      rw [mem_dedupLoop]
      simp
    · intro hws
      rw [parts_ws raw hws]
      rfl

/-- C9 witness: a whitespace-only paste normalizes to the empty list. -/
theorem C9_ws_witness : limpar_lista_codigos " \n\t " = [] :=
  (C9_normalizer_dedup_order " \n\t ").2.2.2.2.2 (by decide)

end NCM
